import Mathlib

/-!
Verification of the genetic-algorithm evolver (`evolver.py`): the generational
evolution engine (`VectorEvolver`), its bounded survivor ledger built on
Python's `heapq`, the crossover/mutation operators, and the vector-to-matrix
codec of `MatrixEvolver`.

Modelling conventions:
* Python floats used as priorities are modelled as rationals (`ℚ`); the
  concrete priorities appearing in the spec scenarios (0.1, 0.9, 0.5, 0.3)
  compare identically as floats and as rationals.
* `uuid.uuid1()` is modelled as a fresh-counter: each call returns the next
  natural number, which preserves exactly the properties used by the code
  (uniqueness and comparability).
* Randomness (`np.random.rand(vec_size) < p`) is externalised: the boolean
  mask is a parameter; its length is `vec_size` by construction in the code,
  which theorems assume as a hypothesis where relevant.
* Python exceptions (`IndexError`, `ValueError` raised by numpy) are modelled
  with `Except String` / `Option`; the loops of Python's `heapq` are modelled
  with a structural fuel argument that equals the loop's termination measure,
  so the fuel never runs out on the calls the code makes.
-/

namespace Evolver

/-- Entries pushed on `_child_heap` are Python lists `[priority, cid]`,
compared lexicographically. -/
abbrev HeapEntry := ℚ × Nat

/-- Python's lexicographic `<` on the two-element lists `[priority, cid]`. -/
def entLt (a b : HeapEntry) : Bool :=
  decide (a.1 < b.1) || (decide (a.1 = b.1) && decide (a.2 < b.2))

/-- Loop of CPython `heapq._siftdown`: bubble `newitem` up from `pos` towards
`startpos`, shifting larger parents down.  `fuel` is the loop measure (`pos`
strictly decreases each iteration, so fuel `pos` is always enough). -/
def siftdownLoop (startpos : Nat) (newitem : HeapEntry) :
    Nat → Nat → List HeapEntry → Nat × List HeapEntry
  | 0, pos, heap => (pos, heap)
  | fuel + 1, pos, heap =>
    if startpos < pos then
      let parentpos := (pos - 1) / 2
      match heap[parentpos]? with
      | none => (pos, heap)
      | some parent =>
        if entLt newitem parent then
          siftdownLoop startpos newitem fuel parentpos (heap.set pos parent)
        else (pos, heap)
    else (pos, heap)

/-- CPython `heapq._siftdown(heap, startpos, pos)`: `newitem = heap[pos]`,
run the bubble-up loop, then place `newitem` at the final position. -/
def siftdown (startpos pos : Nat) (heap : List HeapEntry) : List HeapEntry :=
  match heap[pos]? with
  | none => heap
  | some newitem =>
    let r := siftdownLoop startpos newitem pos pos heap
    r.2.set r.1 newitem

/-- Loop of CPython `heapq._siftup`: move the smaller child up into `pos`,
descending until a leaf.  `fuel` is the loop measure (`pos` strictly
increases towards `endpos`, so fuel `endpos` is always enough). -/
def siftupLoop (endpos : Nat) :
    Nat → Nat → List HeapEntry → Nat × List HeapEntry
  | 0, pos, heap => (pos, heap)
  | fuel + 1, pos, heap =>
    let childpos := 2 * pos + 1
    if childpos < endpos then
      let rightpos := childpos + 1
      let cp :=
        if rightpos < endpos &&
            !(entLt (heap.getD childpos ((0 : ℚ), 0)) (heap.getD rightpos ((0 : ℚ), 0))) then
          rightpos
        else childpos
      match heap[cp]? with
      | none => (pos, heap)
      | some child => siftupLoop endpos fuel cp (heap.set pos child)
    else (pos, heap)

/-- CPython `heapq._siftup(heap, pos)`: hold out `newitem = heap[pos]`, pull
the smaller child up repeatedly, place `newitem` in the freed leaf, then
bubble it up with `_siftdown`. -/
def siftup (pos : Nat) (heap : List HeapEntry) : List HeapEntry :=
  match heap[pos]? with
  | none => heap
  | some newitem =>
    let r := siftupLoop heap.length heap.length pos heap
    siftdown pos r.1 (r.2.set r.1 newitem)

/-- CPython `heapq.heappush`: append then sift down from the new last index. -/
def heappush (heap : List HeapEntry) (item : HeapEntry) : List HeapEntry :=
  siftdown 0 heap.length (heap ++ [item])

/-- CPython `heapq.heapreplace`: overwrite the root with `item` and sift up.
The popped root is discarded by the caller in `add_child`. -/
def heapreplace (heap : List HeapEntry) (item : HeapEntry) : List HeapEntry :=
  siftup 0 (heap.set 0 item)

/-- Insert an entry into a descending-sorted list (auxiliary for `nlargest`). -/
def insertDesc (e : HeapEntry) : List HeapEntry → List HeapEntry
  | [] => [e]
  | x :: xs => if entLt x e then e :: x :: xs else x :: insertDesc e xs

/-- Sort entries in descending lexicographic order. -/
def sortDesc (l : List HeapEntry) : List HeapEntry := l.foldr insertDesc []

/-- `heapq.nlargest(n, iterable)`: the `n` largest elements, descending, i.e.
`sorted(iterable, reverse=True)[:n]`. -/
def nlargest (n : Nat) (l : List HeapEntry) : List HeapEntry := (sortDesc l).take n

/-- CrossoverType: the Python enum has the single member `UNIFORM`; Python's
dynamic typing lets any other value reach the `==` dispatch, modelled by the
`other` constructor. -/
inductive CrossoverSel where
  | UNIFORM : CrossoverSel
  | other : Nat → CrossoverSel
deriving DecidableEq, Repr

/-- MutationType: the Python enum has the single member `FLIP_BIT`; any other
value is modelled by `other`. -/
inductive MutationSel where
  | FLIP_BIT : MutationSel
  | other : Nat → MutationSel
deriving DecidableEq, Repr

/-- Genomes are 1-D integer vectors (`np.ndarray` values under the bit-flip
operator). -/
abbrev Genome := List Int

/-- `VectorEvolver.init_child`: `np.random.randint(low=0, high=1, size)` has
an exclusive upper bound of 1, so every sample is 0 and the result is the
all-zero vector of the requested length. -/
def init_child (size : Nat) : Genome := List.replicate size 0

/-- State of a `VectorEvolver` (the engine plus its generation ledger). -/
structure VectorEvolver where
  vec_size : Nat
  crossover_type : CrossoverSel
  mutation_type : MutationSel
  child_dict : List (Nat × Genome)
  child_heap : List HeapEntry
  generation : Nat
  generation_priorities : List ℚ
  num_parents : Nat
  parents : List Genome
  next_uuid : Nat
deriving Repr

/-- `VectorEvolver.__init__`: empty ledger, generation 0, and
`num_parents = 2` parents produced by `init_child`. -/
def mkVectorEvolver (size : Nat) (ct : CrossoverSel) (mt : MutationSel) :
    VectorEvolver :=
  { vec_size := size
    crossover_type := ct
    mutation_type := mt
    child_dict := []
    child_heap := []
    generation := 0
    generation_priorities := []
    num_parents := 2
    parents := List.replicate 2 (init_child size)
    next_uuid := 0 }

/-- Python dict lookup `d[k]` on the child map, `none` modelling `KeyError`. -/
def dictGet (d : List (Nat × Genome)) (k : Nat) : Option Genome :=
  (d.find? (fun p => p.1 = k)).map (fun p => p.2)

/-- `VectorEvolver.add_child(child, priority)`: record the child under a fresh
id, then `heapreplace` when the heap already has `num_parents` entries, else
`heappush`; finally log the priority.  Returns the new state and the id. -/
def add_child (e : VectorEvolver) (child : Genome) (priority : ℚ) :
    VectorEvolver × Nat :=
  let cid := e.next_uuid
  let entry : HeapEntry := (priority, cid)
  let heap :=
    if e.num_parents ≤ e.child_heap.length then heapreplace e.child_heap entry
    else heappush e.child_heap entry
  ({ e with
      child_dict := e.child_dict ++ [(cid, child)]
      child_heap := heap
      generation_priorities := e.generation_priorities ++ [priority]
      next_uuid := cid + 1 },
   cid)

/-- A generation of `add_child` calls, applied left to right. -/
def runAdds (adds : List (Genome × ℚ)) (e : VectorEvolver) : VectorEvolver :=
  adds.foldl (fun s gp => (add_child s gp.1 gp.2).1) e

/-- The comprehension `[self._child_dict[pcid] for priority, pcid in l]`;
`none` models the `KeyError` on a missing id. -/
def lookupAll (d : List (Nat × Genome)) : List HeapEntry → Option (List Genome)
  | [] => some []
  | x :: xs =>
    match dictGet d x.2, lookupAll d xs with
    | some g, some gs => some (g :: gs)
    | _, _ => none

/-- `VectorEvolver.update_parents`: take `nlargest(num_parents)` from the
heap, look each id up in the child map to form the new parents, then reset
the ledger and advance the generation counter. -/
def update_parents (e : VectorEvolver) : Option VectorEvolver :=
  match lookupAll e.child_dict (nlargest e.num_parents e.child_heap) with
  | none => none
  | some ps =>
    some { e with
            parents := ps
            child_dict := []
            child_heap := []
            generation_priorities := []
            generation := e.generation + 1 }

/-- Every id on the child heap is a key of the child map; this is the
reachable-state invariant that makes the dict lookups of `update_parents`
succeed. -/
def HeapDictInv (e : VectorEvolver) : Prop :=
  ∀ x ∈ e.child_heap, (dictGet e.child_dict x.2).isSome

/-- Number of `true` positions in a boolean mask. -/
def countTrue (mask : List Bool) : Nat := (mask.filter id).length

/-- Elements of `a` at the `true` positions of `mask` (the read part of numpy
boolean indexing `a[mask]`); length agreement is checked by `npMaskGet`. -/
def selectMask : List Int → List Bool → List Int
  | x :: xs, true :: ms => x :: selectMask xs ms
  | _ :: xs, false :: ms => selectMask xs ms
  | _, _ => []

/-- Replace the elements of `a` at the `true` positions of `mask` by the
successive elements of `src` (the write part of `a[mask] = src`). -/
def fillMask : List Int → List Bool → List Int → List Int
  | [], _, _ => []
  | x :: xs, [], _ => x :: xs
  | x :: xs, b :: ms, src =>
    if b then
      match src with
      | v :: rest => v :: fillMask xs ms rest
      | [] => x :: fillMask xs ms []
    else x :: fillMask xs ms src

/-- Numpy boolean-mask read `a[mask]`: raises `IndexError` when the mask
length differs from the array length. -/
def npMaskGet (a : List Int) (mask : List Bool) : Except String (List Int) :=
  if mask.length = a.length then Except.ok (selectMask a mask)
  else Except.error "IndexError: boolean index did not match indexed array"

/-- Numpy boolean-mask write `a[mask] = src`: raises `IndexError` when the
mask length differs from the array length, broadcasts a one-element `src`,
and raises `ValueError` when `src` cannot fill the selected positions. -/
def npMaskSet (a : List Int) (mask : List Bool) (src : List Int) :
    Except String (List Int) :=
  if mask.length = a.length then
    if src.length = countTrue mask then Except.ok (fillMask a mask src)
    else if src.length = 1 then
      Except.ok (fillMask a mask (List.replicate (countTrue mask) (src.headD 0)))
    else Except.error "ValueError: shape mismatch in boolean assignment"
  else Except.error "IndexError: boolean index did not match indexed array"

/-- `VectorEvolver.crossover(p1, p2)` as a value-level function: start from a
copy `c` of `p1`; under `UNIFORM`, write `p2[crossover_bits]` into
`c[crossover_bits]`; any other selector falls through the `if` and returns
the copy unchanged.  `mask` models `np.random.rand(vec_size) < 0.5`, so its
length is `vec_size` whenever the engine calls this. -/
def crossover (sel : CrossoverSel) (mask : List Bool) (p1 p2 : Genome) :
    Except String Genome :=
  let c := p1
  if sel = CrossoverSel.UNIFORM then
    match npMaskGet p2 mask with
    | Except.error msg => Except.error msg
    | Except.ok src => npMaskSet c mask src
  else Except.ok c

/-- `VectorEvolver.mutate(p)` as a value-level function: under `FLIP_BIT`,
`p[mutation_bits] = 1 - p[mutation_bits]`; any other selector falls through
and returns `p` unchanged.  `mask` models
`np.random.rand(vec_size) < 1 / vec_size`. -/
def mutate (msel : MutationSel) (mask : List Bool) (p : Genome) :
    Except String Genome :=
  if msel = MutationSel.FLIP_BIT then
    match npMaskGet p mask with
    | Except.error msg => Except.error msg
    | Except.ok vals => npMaskSet p mask (vals.map (fun v => 1 - v))
  else Except.ok p

/-- A store of numpy arrays, indexed by allocation order; models object
identity so that aliasing and in-place updates are observable. -/
abbrev Store := List Genome

/-- Value of the array at index `i` of the store. -/
def readArr (st : Store) (i : Nat) : Genome := (st[i]?).getD []

/-- Overwrite the array at index `i` of the store (an in-place numpy write). -/
def writeArr (st : Store) (i : Nat) (a : Genome) : Store := st.set i a

/-- Store-level `crossover`: `c = np.copy(p1)` allocates a fresh array (index
`st.length`), and every write the operator performs targets that copy, so the
final value of the copy is the value-level `crossover` result. -/
def crossoverS (st : Store) (sel : CrossoverSel) (mask : List Bool)
    (i1 i2 : Nat) : Except String (Store × Nat) :=
  let cid := st.length
  let st1 := st ++ [readArr st i1]
  match crossover sel mask (readArr st i1) (readArr st i2) with
  | Except.error msg => Except.error msg
  | Except.ok c => Except.ok (writeArr st1 cid c, cid)

/-- Store-level `mutate`: the operator writes into the array it is given
(`p[mutation_bits] = 1 - p[mutation_bits]`) and returns that same array. -/
def mutateS (st : Store) (msel : MutationSel) (mask : List Bool) (pid : Nat) :
    Except String (Store × Nat) :=
  match mutate msel mask (readArr st pid) with
  | Except.error msg => Except.error msg
  | Except.ok pv => Except.ok (writeArr st pid pv, pid)

/-- `VectorEvolver.spawn_child`:
`self.mutate(self.crossover(self._parents[0], self._parents[1]))`, with the
parents living at store indices `i1`, `i2`. -/
def spawn_child (st : Store) (sel : CrossoverSel) (msel : MutationSel)
    (mask1 mask2 : List Bool) (i1 i2 : Nat) : Except String (Store × Nat) :=
  match crossoverS st sel mask1 i1 i2 with
  | Except.error msg => Except.error msg
  | Except.ok (st1, cid) => mutateS st1 msel mask2 cid

/-- A numpy array of arbitrary rank: a shape together with its row-major
data.  `reshape` only changes `shape`; the data order is unchanged. -/
structure NPArray where
  shape : List Nat
  data : List Int
deriving DecidableEq, Repr

/-- `MatrixEvolver._matrix_params`: `[np.product(s) for s in sizes]`. -/
def matrixParams (sizes : List (List Nat)) : List Nat :=
  sizes.map (fun s => s.prod)

/-- `MatrixEvolver._total_params`: `np.sum(self._matrix_params)`. -/
def totalParams (sizes : List (List Nat)) : Nat := (matrixParams sizes).sum

/-- Numpy assignment `m[:] = src` where `m` is a fresh 1-D zero array of
length `s` and `src` is a 1-D slice: exact lengths copy, a one-element
source broadcasts, anything else raises `ValueError`. -/
def npBroadcast1D (src : List Int) (s : Nat) : Except String (List Int) :=
  if src.length = s then Except.ok src
  else if src.length = 1 then Except.ok (List.replicate s (src.headD 0))
  else Except.error "ValueError: could not broadcast input array"

/-- Loop body of `MatrixEvolver.vec_to_matrices`: for each declared shape,
copy the next `np.product(shape)` elements out of `vec` (numpy slicing
clamps out-of-range bounds) into a fresh buffer and reshape it. -/
def vecToMatricesGo (vec : List Int) :
    List (List Nat) → Nat → Except String (List NPArray)
  | [], _ => Except.ok []
  | shape :: rest, idx =>
    let s := shape.prod
    match npBroadcast1D ((vec.drop idx).take s) s with
    | Except.error msg => Except.error msg
    | Except.ok d =>
      match vecToMatricesGo vec rest (idx + s) with
      | Except.error msg => Except.error msg
      | Except.ok ms => Except.ok (⟨shape, d⟩ :: ms)

/-- `MatrixEvolver.vec_to_matrices(vec)`. -/
def vec_to_matrices (sizes : List (List Nat)) (vec : List Int) :
    Except String (List NPArray) :=
  vecToMatricesGo vec sizes 0

/-- Numpy slice `m[:]`: the whole array for rank at least 1; raises
`IndexError` on a rank-0 array. -/
def npSliceAll (m : NPArray) : Except String NPArray :=
  match m.shape with
  | [] => Except.error "IndexError: too many indices for array"
  | _ => Except.ok m

/-- Numpy assignment `vec[idx : idx + s] = m`: the source must broadcast to
the 1-D segment shape `(s,)`, which requires rank exactly 1 with extent `s`,
or extent 1 (broadcast); any rank of 2 or more raises `ValueError`. -/
def npAssignSegment (m : NPArray) (s : Nat) : Except String (List Int) :=
  match m.shape with
  | [d] =>
    if d = s then Except.ok m.data
    else if d = 1 then Except.ok (List.replicate s (m.data.headD 0))
    else Except.error "ValueError: could not broadcast input array"
  | _ => Except.error "ValueError: could not broadcast input array into 1-D segment"

/-- Loop body of `MatrixEvolver.matrices_to_vec`: for the `i`-th declared
shape, write `matrices[i][:]` into the next segment of the output vector;
a missing matrix raises `IndexError`, extra matrices are never read. -/
def matricesToVecGo (matrices : List NPArray) :
    List (List Nat) → Nat → Except String (List Int)
  | [], _ => Except.ok []
  | shape :: rest, i =>
    let s := shape.prod
    match matrices[i]? with
    | none => Except.error "IndexError: list index out of range"
    | some m =>
      match npSliceAll m with
      | Except.error msg => Except.error msg
      | Except.ok mm =>
        match npAssignSegment mm s with
        | Except.error msg => Except.error msg
        | Except.ok seg =>
          match matricesToVecGo matrices rest (i + 1) with
          | Except.error msg => Except.error msg
          | Except.ok v => Except.ok (seg ++ v)

/-- `MatrixEvolver.matrices_to_vec(matrices)`. -/
def matrices_to_vec (sizes : List (List Nat)) (matrices : List NPArray) :
    Except String (List Int) :=
  matricesToVecGo matrices sizes 0

end Evolver

namespace Evolver

theorem siftdownLoop_length (sp : Nat) (ni : HeapEntry) :
    ∀ (fuel pos : Nat) (heap : List HeapEntry),
      ((siftdownLoop sp ni fuel pos heap).2).length = heap.length := by
  intro fuel
  induction fuel with
  | zero => intro pos heap; rfl
  | succ fuel ih =>
    intro pos heap
    simp only [siftdownLoop]
    split
    · split
      · rfl
      · split
        · rw [ih]
          exact List.length_set heap _ _
        · rfl
    · rfl

theorem siftdown_length (sp pos : Nat) (heap : List HeapEntry) :
    (siftdown sp pos heap).length = heap.length := by
  rw [siftdown]
  split
  · rfl
  · rw [List.length_set, siftdownLoop_length]

theorem siftupLoop_length (ep : Nat) :
    ∀ (fuel pos : Nat) (heap : List HeapEntry),
      ((siftupLoop ep fuel pos heap).2).length = heap.length := by
  intro fuel
  induction fuel with
  | zero => intro pos heap; rfl
  | succ fuel ih =>
    intro pos heap
    simp only [siftupLoop]
    split
    · split
      · rfl
      · rw [ih]
        exact List.length_set heap _ _
    · rfl

theorem siftup_length (pos : Nat) (heap : List HeapEntry) :
    (siftup pos heap).length = heap.length := by
  rw [siftup]
  split
  · rfl
  · rw [siftdown_length, List.length_set, siftupLoop_length]

theorem heappush_length (heap : List HeapEntry) (item : HeapEntry) :
    (heappush heap item).length = heap.length + 1 := by
  rw [heappush, siftdown_length, List.length_append, List.length_singleton]

theorem heapreplace_length (heap : List HeapEntry) (item : HeapEntry) :
    (heapreplace heap item).length = heap.length := by
  rw [heapreplace, siftup_length, List.length_set]

theorem mem_siftdownLoop (sp : Nat) (ni : HeapEntry) :
    ∀ (fuel pos : Nat) (heap : List HeapEntry) (x : HeapEntry),
      x ∈ (siftdownLoop sp ni fuel pos heap).2 → x ∈ heap := by
  intro fuel
  induction fuel with
  | zero => intro pos heap x hx; exact hx
  | succ fuel ih =>
    intro pos heap x hx
    simp only [siftdownLoop] at hx
    split at hx
    · split at hx
      next => exact hx
      next parent heq =>
        split at hx
        · rcases List.mem_or_eq_of_mem_set (ih _ _ _ hx) with h | h
          · exact h
          · subst h
            exact List.getElem?_mem heq
        · exact hx
    · exact hx

theorem mem_siftdown (sp pos : Nat) (heap : List HeapEntry) (x : HeapEntry) :
    x ∈ siftdown sp pos heap → x ∈ heap := by
  rw [siftdown]
  split
  next => exact fun hx => hx
  next ni hp =>
    intro hx
    rcases List.mem_or_eq_of_mem_set hx with h | h
    · exact mem_siftdownLoop _ _ _ _ _ _ h
    · subst h
      exact List.getElem?_mem hp

theorem mem_siftupLoop (ep : Nat) :
    ∀ (fuel pos : Nat) (heap : List HeapEntry) (x : HeapEntry),
      x ∈ (siftupLoop ep fuel pos heap).2 → x ∈ heap := by
  intro fuel
  induction fuel with
  | zero => intro pos heap x hx; exact hx
  | succ fuel ih =>
    intro pos heap x hx
    simp only [siftupLoop] at hx
    split at hx
    · split at hx
      next => exact hx
      next child heq =>
        rcases List.mem_or_eq_of_mem_set (ih _ _ _ hx) with h | h
        · exact h
        · subst h
          exact List.getElem?_mem heq
    · exact hx

theorem mem_siftup (pos : Nat) (heap : List HeapEntry) (x : HeapEntry) :
    x ∈ siftup pos heap → x ∈ heap := by
  rw [siftup]
  split
  next => exact fun hx => hx
  next ni hp =>
    intro hx
    rcases List.mem_or_eq_of_mem_set (mem_siftdown _ _ _ _ hx) with h | h
    · exact mem_siftupLoop _ _ _ _ _ h
    · subst h
      exact List.getElem?_mem hp

theorem mem_heappush (heap : List HeapEntry) (item x : HeapEntry) :
    x ∈ heappush heap item → x ∈ heap ∨ x = item := by
  intro hx
  have h := mem_siftdown _ _ _ _ hx
  rcases List.mem_append.mp h with h | h
  · exact Or.inl h
  · exact Or.inr (List.mem_singleton.mp h)

theorem mem_heapreplace (heap : List HeapEntry) (item x : HeapEntry) :
    x ∈ heapreplace heap item → x ∈ heap ∨ x = item := by
  intro hx
  rcases List.mem_or_eq_of_mem_set (mem_siftup _ _ _ hx) with h | h
  · exact Or.inl h
  · exact Or.inr h

theorem length_insertDesc (e : HeapEntry) (l : List HeapEntry) :
    (insertDesc e l).length = l.length + 1 := by
  induction l with
  | nil => rfl
  | cons x xs ih =>
    rw [insertDesc]
    split
    · rfl
    · simp [ih]

theorem mem_insertDesc (e x : HeapEntry) (l : List HeapEntry) :
    x ∈ insertDesc e l → x = e ∨ x ∈ l := by
  induction l with
  | nil => intro hx; simpa [insertDesc] using hx
  | cons y ys ih =>
    intro hx
    rw [insertDesc] at hx
    split at hx
    · rw [List.mem_cons] at hx
      exact hx
    · rw [List.mem_cons] at hx
      rcases hx with h | h
      · exact Or.inr (by rw [h]; exact List.mem_cons_self y ys)
      · rcases ih h with h2 | h2
        · exact Or.inl h2
        · exact Or.inr (List.mem_cons_of_mem _ h2)

theorem length_sortDesc (l : List HeapEntry) :
    (sortDesc l).length = l.length := by
  induction l with
  | nil => rfl
  | cons x xs ih =>
    show (insertDesc x (sortDesc xs)).length = xs.length + 1
    rw [length_insertDesc, ih]

theorem mem_sortDesc (x : HeapEntry) (l : List HeapEntry) :
    x ∈ sortDesc l → x ∈ l := by
  induction l with
  | nil => exact fun hx => hx
  | cons y ys ih =>
    intro hx
    rcases mem_insertDesc y x (sortDesc ys) hx with h | h
    · simp [h]
    · exact List.mem_cons_of_mem _ (ih h)

theorem length_nlargest (n : Nat) (l : List HeapEntry) :
    (nlargest n l).length = min n l.length := by
  rw [nlargest, List.length_take, length_sortDesc]

theorem mem_nlargest (n : Nat) (l : List HeapEntry) (x : HeapEntry) :
    x ∈ nlargest n l → x ∈ l :=
  fun hx => mem_sortDesc x l (List.mem_of_mem_take hx)

theorem dictGet_append_left (d d2 : List (Nat × Genome)) (k : Nat)
    (h : (dictGet d k).isSome) : dictGet (d ++ d2) k = dictGet d k := by
  rw [dictGet, dictGet] at *
  rw [List.find?_append]
  cases hf : d.find? (fun p => p.1 = k) with
  | none => rw [hf] at h; simp at h
  | some p => simp [hf]

theorem dictGet_append_self (d : List (Nat × Genome)) (k : Nat) (c : Genome) :
    (dictGet (d ++ [(k, c)]) k).isSome := by
  rw [dictGet, List.find?_append]
  cases hf : d.find? (fun p => p.1 = k) with
  | none => simp
  | some p => simp

theorem add_child_num_parents (e : VectorEvolver) (c : Genome) (p : ℚ) :
    ((add_child e c p).1).num_parents = e.num_parents := rfl

theorem add_child_dict (e : VectorEvolver) (c : Genome) (p : ℚ) :
    ((add_child e c p).1).child_dict = e.child_dict ++ [(e.next_uuid, c)] := rfl

theorem add_child_heap (e : VectorEvolver) (c : Genome) (p : ℚ) :
    ((add_child e c p).1).child_heap
    = if e.num_parents ≤ e.child_heap.length
        then heapreplace e.child_heap (p, e.next_uuid)
        else heappush e.child_heap (p, e.next_uuid) := rfl

theorem add_child_heap_length (e : VectorEvolver) (c : Genome) (p : ℚ)
    (h : e.child_heap.length ≤ e.num_parents) :
    ((add_child e c p).1).child_heap.length
    = min (e.child_heap.length + 1) e.num_parents := by
  rw [add_child_heap]
  split
  · rw [heapreplace_length]; omega
  · rw [heappush_length]; omega

theorem add_child_inv (e : VectorEvolver) (c : Genome) (p : ℚ)
    (h : HeapDictInv e) : HeapDictInv (add_child e c p).1 := by
  intro x hx
  rw [add_child_heap] at hx
  rw [add_child_dict]
  have hms : x ∈ e.child_heap ∨ x = (p, e.next_uuid) := by
    split at hx
    · exact mem_heapreplace _ _ _ hx
    · exact mem_heappush _ _ _ hx
  rcases hms with hm | hm
  · have hs := h x hm
    rw [dictGet_append_left _ _ _ hs]
    exact hs
  · subst hm
    exact dictGet_append_self e.child_dict e.next_uuid c

theorem runAdds_nil (e : VectorEvolver) : runAdds [] e = e := rfl

theorem runAdds_cons (gp : Genome × ℚ) (adds : List (Genome × ℚ))
    (e : VectorEvolver) :
    runAdds (gp :: adds) e = runAdds adds (add_child e gp.1 gp.2).1 := rfl

theorem runAdds_num_parents :
    ∀ (adds : List (Genome × ℚ)) (e : VectorEvolver),
      (runAdds adds e).num_parents = e.num_parents := by
  intro adds
  induction adds with
  | nil => intro e; rfl
  | cons gp adds ih =>
    intro e
    rw [runAdds_cons, ih, add_child_num_parents]

theorem runAdds_heap_length :
    ∀ (adds : List (Genome × ℚ)) (e : VectorEvolver),
      e.child_heap.length ≤ e.num_parents →
      (runAdds adds e).child_heap.length
        = min (e.child_heap.length + adds.length) e.num_parents := by
  intro adds
  induction adds with
  | nil =>
    intro e h
    rw [runAdds_nil, List.length_nil]
    omega
  | cons gp adds ih =>
    intro e h
    have h1 := add_child_heap_length e gp.1 gp.2 h
    have h2 : ((add_child e gp.1 gp.2).1).child_heap.length
        ≤ ((add_child e gp.1 gp.2).1).num_parents := by
      rw [h1, add_child_num_parents]; omega
    rw [runAdds_cons, ih _ h2, h1, add_child_num_parents, List.length_cons]
    omega

theorem runAdds_inv :
    ∀ (adds : List (Genome × ℚ)) (e : VectorEvolver),
      HeapDictInv e → HeapDictInv (runAdds adds e) := by
  intro adds
  induction adds with
  | nil => intro e h; exact h
  | cons gp adds ih =>
    intro e h
    rw [runAdds_cons]
    exact ih _ (add_child_inv e gp.1 gp.2 h)

theorem lookupAll_eq_some (d : List (Nat × Genome)) :
    ∀ l : List HeapEntry, (∀ x ∈ l, (dictGet d x.2).isSome) →
      ∃ gs, lookupAll d l = some gs ∧ gs.length = l.length := by
  intro l
  induction l with
  | nil => intro _; exact ⟨[], rfl, rfl⟩
  | cons x xs ih =>
    intro h
    have hx := h x (List.mem_cons_self x xs)
    rcases Option.isSome_iff_exists.mp hx with ⟨g, hg⟩
    rcases ih (fun y hy => h y (List.mem_cons_of_mem _ hy)) with ⟨gs, hgs, hlen⟩
    refine ⟨g :: gs, ?_, by rw [List.length_cons, List.length_cons, hlen]⟩
    rw [lookupAll, hg, hgs]

theorem update_parents_some (e : VectorEvolver) (hinv : HeapDictInv e) :
    ∃ e2, update_parents e = some e2
      ∧ e2.parents.length = min e.num_parents e.child_heap.length := by
  have hall : ∀ x ∈ nlargest e.num_parents e.child_heap,
      (dictGet e.child_dict x.2).isSome :=
    fun x hx => hinv x (mem_nlargest _ _ _ hx)
  rcases lookupAll_eq_some e.child_dict _ hall with ⟨gs, hgs, hlen⟩
  refine ⟨{ e with
              parents := gs
              child_dict := []
              child_heap := []
              generation_priorities := []
              generation := e.generation + 1 }, ?_, ?_⟩
  · rw [update_parents, hgs]
  · show gs.length = _
    rw [hlen, length_nlargest]

theorem mk_heap_dict_inv (size : Nat) (ct : CrossoverSel) (mt : MutationSel) :
    HeapDictInv (mkVectorEvolver size ct mt) := by
  intro x hx
  cases hx

theorem readArr_writeArr_ne (st : Store) (j : Nat) (a : Genome) (i : Nat)
    (h : i ≠ j) : readArr (writeArr st j a) i = readArr st i := by
  rw [readArr, writeArr, readArr, List.getElem?_set_ne (fun hji => h hji.symm)]

theorem readArr_append_lt (st : Store) (x : Genome) (i : Nat)
    (h : i < st.length) : readArr (st ++ [x]) i = readArr st i := by
  rw [readArr, readArr, List.getElem?_append_left h]

theorem crossoverS_ok (st : Store) (sel : CrossoverSel) (mask : List Bool)
    (i1 i2 : Nat) (st1 : Store) (cid : Nat)
    (h : crossoverS st sel mask i1 i2 = Except.ok (st1, cid)) :
    cid = st.length ∧ ∀ j, j < st.length → readArr st1 j = readArr st j := by
  rw [crossoverS] at h
  cases hcv : crossover sel mask (readArr st i1) (readArr st i2) with
  | error m => rw [hcv] at h; cases h
  | ok cv =>
    rw [hcv] at h
    injection h with h
    injection h with hst hcid
    refine ⟨hcid.symm, fun j hj => ?_⟩
    rw [← hst, readArr_writeArr_ne _ _ _ _ (by omega), readArr_append_lt _ _ _ hj]

theorem mutateS_ok (st : Store) (msel : MutationSel) (mask : List Bool)
    (pid : Nat) (st2 : Store) (rid : Nat)
    (h : mutateS st msel mask pid = Except.ok (st2, rid)) :
    rid = pid ∧ ∀ j, j ≠ pid → readArr st2 j = readArr st j := by
  rw [mutateS] at h
  cases hmv : mutate msel mask (readArr st pid) with
  | error m => rw [hmv] at h; cases h
  | ok pv =>
    rw [hmv] at h
    injection h with h
    injection h with hst hrid
    refine ⟨hrid.symm, fun j hj => ?_⟩
    rw [← hst, readArr_writeArr_ne _ _ _ _ hj]

example :
    crossover .UNIFORM [true, false] [1, 1] [0, 0] = Except.ok [0, 1] := by rfl

example :
    mutate .FLIP_BIT [true, false] [1, 0] = Except.ok [0, 0] := by rfl

theorem vecToMatricesGo_ok (vec : List Int) :
    ∀ (sizes : List (List Nat)) (idx : Nat),
      idx + (matrixParams sizes).sum ≤ vec.length →
      (vecToMatricesGo vec sizes idx).isOk = true := by
  intro sizes
  induction sizes with
  | nil => intro idx _; rfl
  | cons shape rest ih =>
    intro idx h
    have hsum : shape.prod + (idx + (matrixParams rest).sum) ≤ vec.length := by
      simp only [matrixParams, List.map_cons, List.sum_cons] at h ⊢
      omega
    have hslice : ((vec.drop idx).take shape.prod).length = shape.prod := by
      rw [List.length_take, List.length_drop]
      omega
    have hbc : npBroadcast1D ((vec.drop idx).take shape.prod) shape.prod
        = Except.ok ((vec.drop idx).take shape.prod) := by
      rw [npBroadcast1D, if_pos hslice]
    have hrec := ih (idx + shape.prod) (by omega)
    simp only [vecToMatricesGo]
    rw [hbc]
    cases hgo : vecToMatricesGo vec rest (idx + shape.prod) with
    | error m => rw [hgo] at hrec; exact hrec
    | ok ms => rfl

/-- C1 (code bug): on the spec scenario — priorities 0.1, 0.9, 0.5, 0.3 with
`num_parents = 2` — the survivors returned by `update_parents` are the
genomes added with priorities 0.9 and 0.3, not 0.9 and 0.5 as specified:
`add_child` uses `heapreplace`, which evicts the heap minimum
unconditionally, so the last insertion always survives. -/
theorem update_parents_spec_scenario :
    (update_parents
      (runAdds
        [([1, 0, 0, 0], mkRat 1 10), ([0, 1, 0, 0], mkRat 9 10),
         ([0, 0, 1, 0], mkRat 5 10), ([0, 0, 0, 1], mkRat 3 10)]
        (mkVectorEvolver 4 CrossoverSel.UNIFORM MutationSel.FLIP_BIT))).map
      (fun e => e.parents)
    = some [[0, 1, 0, 0], [0, 0, 0, 1]] := by decide

/-- C2 (code bug): with the heap full at priorities 0.5 and 0.9, adding a
child with priority 0.1 — strictly below the current minimum 0.5 — still
evicts the minimum entry and retains the new one: `heapreplace` performs no
comparison (that would be `heappushpop`), so the heap afterwards holds 0.1
and 0.9 rather than staying unchanged. -/
theorem add_child_full_heap_always_replaces :
    (runAdds
      [([0], mkRat 5 10), ([1], mkRat 9 10), ([2], mkRat 1 10)]
      (mkVectorEvolver 1 CrossoverSel.UNIFORM MutationSel.FLIP_BIT)).child_heap
    = [(mkRat 1 10, 2), (mkRat 9 10, 1)] := by decide

/-- C3 (code bug): on the spec scenario with shapes `[(2,2), (3,)]`,
decoding the vector `[1,0,0,1,1,1,0]` produces the expected matrices, but
encoding those same matrices raises instead of returning the vector:
`matrices_to_vec` assigns `matrices[i][:]` — a rank-2 array — into a rank-1
segment, which numpy cannot broadcast (the code is missing a flatten). -/
theorem matrices_to_vec_spec_matrices_raise :
    vec_to_matrices [[2, 2], [3]] [1, 0, 0, 1, 1, 1, 0]
      = Except.ok [⟨[2, 2], [1, 0, 0, 1]⟩, ⟨[3], [1, 1, 0]⟩]
    ∧ (matrices_to_vec [[2, 2], [3]]
        [⟨[2, 2], [1, 0, 0, 1]⟩, ⟨[3], [1, 1, 0]⟩]).isOk = false := ⟨rfl, rfl⟩

/-- C4 (counterexample): a vector of length 8 — one longer than the declared
total of 7 for shapes `[(2,2), (3,)]` — is decoded without any error, so
`vec_to_matrices` does not fail on every length mismatch. -/
theorem vec_to_matrices_overlong_counterexample :
    (vec_to_matrices [[2, 2], [3]] [1, 0, 0, 1, 1, 1, 0, 9]).isOk = true
    ∧ [1, 0, 0, 1, 1, 1, 0, 9].length ≠ totalParams [[2, 2], [3]] :=
  ⟨rfl, by decide⟩

/-- C4 (amended): `vec_to_matrices` performs no length validation; any
vector at least as long as the precomputed total is decoded without error
(the surplus elements are silently ignored), because each numpy slice
`vec[idx : idx + s]` then has exactly `s` elements. -/
theorem vec_to_matrices_ok_of_le (sizes : List (List Nat)) (vec : List Int)
    (h : totalParams sizes ≤ vec.length) :
    (vec_to_matrices sizes vec).isOk = true := by
  rw [vec_to_matrices]
  refine vecToMatricesGo_ok vec sizes 0 ?_
  rw [totalParams] at h
  omega

theorem vec_to_matrices_ok_of_le_witness :
    totalParams [[2, 2], [3]] ≤ [1, 0, 0, 1, 1, 1, 0, 9, 9].length
    ∧ (vec_to_matrices [[2, 2], [3]] [1, 0, 0, 1, 1, 1, 0, 9, 9]).isOk = true :=
  ⟨by decide, vec_to_matrices_ok_of_le [[2, 2], [3]] [1, 0, 0, 1, 1, 1, 0, 9, 9]
    (by decide)⟩

/-- C5 (counterexample): after a generation with a single `add_child` call,
`update_parents` leaves the Parent Set with one genome, not two —
`nlargest(2)` of a one-element heap has one element and the parents list is
rebuilt from it wholesale. -/
theorem update_parents_underfull_counterexample :
    (update_parents
      (runAdds [([0], mkRat 1 2)]
        (mkVectorEvolver 1 CrossoverSel.UNIFORM MutationSel.FLIP_BIT))).map
      (fun e => e.parents.length)
    = some 1 := by decide

/-- C5 (amended): the Parent Set has exactly `num_parents = 2` genomes after
construction, and after `update_parents` whenever at least 2 children were
added in the preceding generation; with fewer additions it shrinks to the
number added. -/
theorem parents_exactly_two (size : Nat) (ct : CrossoverSel)
    (mt : MutationSel) (adds : List (Genome × ℚ)) (h : 2 ≤ adds.length) :
    (mkVectorEvolver size ct mt).parents.length = 2
    ∧ ∃ e2, update_parents (runAdds adds (mkVectorEvolver size ct mt)) = some e2
        ∧ e2.parents.length = 2 := by
  constructor
  · rfl
  · have hinv := runAdds_inv adds _ (mk_heap_dict_inv size ct mt)
    have hlen := runAdds_heap_length adds (mkVectorEvolver size ct mt) (Nat.zero_le _)
    rcases update_parents_some _ hinv with ⟨e2, he2, hplen⟩
    refine ⟨e2, he2, ?_⟩
    rw [hplen, runAdds_num_parents, hlen]
    show min 2 (min (0 + adds.length) 2) = 2
    omega

theorem parents_exactly_two_witness :
    (mkVectorEvolver 1 CrossoverSel.UNIFORM MutationSel.FLIP_BIT).parents.length = 2
    ∧ ∃ e2, update_parents
        (runAdds [([0], mkRat 1 1), ([1], mkRat 2 1)]
          (mkVectorEvolver 1 CrossoverSel.UNIFORM MutationSel.FLIP_BIT)) = some e2
        ∧ e2.parents.length = 2 :=
  parents_exactly_two 1 CrossoverSel.UNIFORM MutationSel.FLIP_BIT
    [([0], mkRat 1 1), ([1], mkRat 2 1)] (by decide)

/-- C6 (counterexample): a selector outside the enumeration does not fail
fast — `crossover` silently returns the copy of the first parent and
`mutate` silently returns its argument, with no error at construction or
invocation. -/
theorem unknown_strategy_noop_counterexample :
    crossover (CrossoverSel.other 1) [true, false] [1, 1] [0, 0]
      = Except.ok [1, 1]
    ∧ mutate (MutationSel.other 1) [true, false] [1, 1] = Except.ok [1, 1] :=
  ⟨rfl, rfl⟩

/-- C6 (amended): for every selector outside the closed enumerations, the
operators are silent no-ops: `crossover` returns an unmodified copy of the
first parent and `mutate` returns the genome unchanged; no
`UnsupportedStrategy`-style error exists anywhere in the dispatch. -/
theorem strategy_fallthrough :
    (∀ (sel : CrossoverSel) (mask : List Bool) (p1 p2 : Genome),
        sel ≠ CrossoverSel.UNIFORM → crossover sel mask p1 p2 = Except.ok p1)
    ∧ (∀ (msel : MutationSel) (mask : List Bool) (p : Genome),
        msel ≠ MutationSel.FLIP_BIT → mutate msel mask p = Except.ok p) := by
  constructor
  · intro sel mask p1 p2 h
    simp only [crossover]
    rw [if_neg h]
  · intro msel mask p h
    simp only [mutate]
    rw [if_neg h]

theorem strategy_fallthrough_witness :
    crossover (CrossoverSel.other 0) [true] [1] [0] = Except.ok [1]
    ∧ mutate (MutationSel.other 0) [true] [5] = Except.ok [5] :=
  ⟨strategy_fallthrough.1 (CrossoverSel.other 0) [true] [1] [0] (by decide),
   strategy_fallthrough.2 (MutationSel.other 0) [true] [5] (by decide)⟩

/-- C7: whenever the two parent genomes differ in length, `crossover` under
the configured `UNIFORM` strategy raises: the random boolean mask has length
`vec_size`, and numpy boolean indexing demands the mask length equal the
array length, which `p1` and `p2` cannot both satisfy — so either reading
`p2[crossover_bits]` or writing `c[crossover_bits]` raises. -/
theorem crossover_err_on_length_mismatch (mask : List Bool) (p1 p2 : Genome)
    (hne : p1.length ≠ p2.length) :
    (crossover CrossoverSel.UNIFORM mask p1 p2).isOk = false := by
  have hdef : crossover CrossoverSel.UNIFORM mask p1 p2
      = match npMaskGet p2 mask with
        | Except.error msg => Except.error msg
        | Except.ok src => npMaskSet p1 mask src := rfl
  rw [hdef, npMaskGet]
  by_cases hm2 : mask.length = p2.length
  · rw [if_pos hm2]
    show (npMaskSet p1 mask (selectMask p2 mask)).isOk = false
    rw [npMaskSet, if_neg (by omega)]
    rfl
  · rw [if_neg hm2]
    rfl

theorem crossover_err_on_length_mismatch_witness :
    ([1] : Genome).length ≠ ([1, 2] : Genome).length
    ∧ (crossover CrossoverSel.UNIFORM [true] [1] [1, 2]).isOk = false :=
  ⟨by decide, crossover_err_on_length_mismatch [true] [1] [1, 2] (by decide)⟩

/-- C8: after any sequence of `add_child` calls on a fresh engine, the child
heap holds at most `num_parents` entries: once the heap is full, `add_child`
switches from `heappush` to `heapreplace`, which never grows the heap. -/
theorem child_heap_bounded (size : Nat) (ct : CrossoverSel)
    (mt : MutationSel) (adds : List (Genome × ℚ)) :
    (runAdds adds (mkVectorEvolver size ct mt)).child_heap.length
      ≤ (mkVectorEvolver size ct mt).num_parents := by
  have hlen := runAdds_heap_length adds (mkVectorEvolver size ct mt) (Nat.zero_le _)
  rw [hlen]
  exact Nat.min_le_right _ _

/-- C9: `init_child` returns the all-zero genome of the requested length:
`np.random.randint(low=0, high=1, size)` samples from the single-element
range, so every position is 0. -/
theorem init_child_zero_vector (size : Nat) (_h : 0 < size) :
    (init_child size).length = size ∧ ∀ x ∈ init_child size, x = 0 :=
  ⟨List.length_replicate size 0, fun _ hx => List.eq_of_mem_replicate hx⟩

theorem init_child_zero_vector_witness :
    0 < 3 ∧ (init_child 3).length = 3 ∧ ∀ x ∈ init_child 3, x = 0 :=
  ⟨by decide, init_child_zero_vector 3 (by decide)⟩

/-- C10: `spawn_child` leaves both parent arrays unchanged and returns a
child aliasing neither: `crossover` copies the first parent into a fresh
array before writing into it and only reads the second parent, and `mutate`
writes only into that fresh copy. -/
theorem spawn_child_frame (st : Store) (sel : CrossoverSel)
    (msel : MutationSel) (mask1 mask2 : List Bool) (i1 i2 : Nat)
    (st2 : Store) (c : Nat) (h1 : i1 < st.length) (h2 : i2 < st.length)
    (hs : spawn_child st sel msel mask1 mask2 i1 i2 = Except.ok (st2, c)) :
    readArr st2 i1 = readArr st i1 ∧ readArr st2 i2 = readArr st i2
    ∧ c ≠ i1 ∧ c ≠ i2 := by
  rw [spawn_child] at hs
  cases hcs : crossoverS st sel mask1 i1 i2 with
  | error m => rw [hcs] at hs; cases hs
  | ok pr =>
    rw [hcs] at hs
    obtain ⟨st1, cid⟩ := pr
    obtain ⟨hcid, hpres1⟩ := crossoverS_ok st sel mask1 i1 i2 st1 cid hcs
    obtain ⟨hrid, hpres2⟩ := mutateS_ok st1 msel mask2 cid st2 c hs
    subst hrid
    subst hcid
    refine ⟨?_, ?_, by omega, by omega⟩
    · rw [hpres2 i1 (by omega), hpres1 i1 h1]
    · rw [hpres2 i2 (by omega), hpres1 i2 h2]

theorem spawn_child_frame_witness :
    readArr [[1, 0], [0, 1], [0, 0]] 0 = readArr [[1, 0], [0, 1]] 0
    ∧ readArr [[1, 0], [0, 1], [0, 0]] 1 = readArr [[1, 0], [0, 1]] 1
    ∧ (2 : Nat) ≠ 0 ∧ (2 : Nat) ≠ 1 :=
  spawn_child_frame [[1, 0], [0, 1]] CrossoverSel.UNIFORM MutationSel.FLIP_BIT
    [true, false] [false, false] 0 1 [[1, 0], [0, 1], [0, 0]] 2
    (by decide) (by decide) rfl

end Evolver
